import Mathlib

/-!
Verification of the quantify-app widget dashboard logic.

This file gives a shallow embedding, in Lean 4, of the pure logic of the
finance-dashboard application: the stock price-change computation
(src/components/widgets/StockPriceCard.tsx), the widget registry and
validation pipeline (widgetComponentRegistry.ts, widgetValidation.ts,
DashboardScreen.tsx), the page indicator (WidgetPageIndicator.tsx), the
pagination scroll handler (PAGINATION_GUIDE.md), the expand/collapse state
machine shared by DashboardScreen and MarketScreen, and the
dashboard-selection logic of both screens.

Modelling conventions:
- JavaScript numbers are modelled as exact rationals.
- A JavaScript object used as a string-keyed map is modelled as an
  association list together with a no-duplicate-keys hypothesis;
  JavaScript insertion order corresponds to list order.
- The default Array.sort comparator on strings compares code units;
  it is modelled by the lexicographic order on the character data of a
  Lean String.
- Number.toFixed f is modelled on exact rationals following the ECMAScript
  algorithm: negative inputs contribute a leading minus sign, and the digit
  string is chosen so that its value is nearest the (absolute) input,
  half-way cases rounding up.
- Fallible or absent values (a missing registry entry, an undefined data
  prop, a missing route param) are modelled with Option.
-/

/-! ## String ordering (default Array.sort comparator on keys) -/

/-- The key order used by the default Array.sort comparator: lexicographic
comparison of the character sequences of the two strings. -/
def strLeP (a b : String) : Prop :=
  a.data ≤ b.data

instance : DecidableRel strLeP :=
  fun a b => inferInstanceAs (Decidable (a.data ≤ b.data))

instance : IsTotal String strLeP :=
  ⟨fun a b => le_total a.data b.data⟩

instance : IsTrans String strLeP :=
  ⟨fun _ _ _ h1 h2 => le_trans h1 h2⟩

instance : IsRefl String strLeP :=
  ⟨fun a => le_refl a.data⟩

instance : IsAntisymm String strLeP :=
  ⟨fun a b h1 h2 => by
    cases a; cases b
    exact congrArg String.mk (le_antisymm h1 h2)⟩

/-! ## Stock price-change computation (StockPriceCard.tsx) -/

/-- Object.keys on a string-keyed object: the keys in insertion order. -/
def objectKeys (prices : List (String × ℚ)) : List String :=
  prices.map Prod.fst

/-- Indexing prices[d]: the value stored under key d (0 for an absent key,
which never occurs for the keys produced by objectKeys). -/
def priceAt (prices : List (String × ℚ)) (d : String) : ℚ :=
  (((prices.find? (fun p => p.1 == d)).map Prod.snd).getD 0)

/-- StockPriceCard.tsx getPriceArray: sort the date keys, then read the
price stored under each key in sorted order. -/
def getPriceArray (prices : List (String × ℚ)) : List ℚ :=
  let sorted := List.insertionSort strLeP (objectKeys prices)
  sorted.map (fun d => priceAt prices d)

/-- The digit string produced by toFixed(2) for a nonnegative scaled
integer n (the value n / 100 printed with exactly two decimals). -/
def fixedDigits2 (n : ℕ) : String :=
  Nat.repr (n / 100) ++ "." ++
    (if n % 100 < 10 then "0" ++ Nat.repr (n % 100) else Nat.repr (n % 100))

/-- Number.prototype.toFixed(2) on an exact rational, following the
ECMAScript algorithm: a minus sign for negative inputs, then the digit
string of the integer nearest to abs x * 100 (ties rounding up). -/
def toFixed2 (x : ℚ) : String :=
  if x < 0 then "-" ++ fixedDigits2 (⌊-x * 100 + 1 / 2⌋).toNat
  else fixedDigits2 (⌊x * 100 + 1 / 2⌋).toNat

/-- The digit string produced by toFixed(1) for a nonnegative scaled
integer n (the value n / 10 printed with exactly one decimal). -/
def fixedDigits1 (n : ℕ) : String :=
  Nat.repr (n / 10) ++ "." ++ Nat.repr (n % 10)

/-- Number.prototype.toFixed(1) on an exact rational, following the
ECMAScript algorithm. -/
def toFixed1 (x : ℚ) : String :=
  if x < 0 then "-" ++ fixedDigits1 (⌊-x * 10 + 1 / 2⌋).toNat
  else fixedDigits1 (⌊x * 10 + 1 / 2⌋).toNat

/-- The record returned by StockPriceCard.tsx getPriceChange. -/
structure PriceChange where
  current : ℚ
  previous : ℚ
  change : ℚ
  changePercent : String
  isPositive : Bool
deriving DecidableEq

/-- StockPriceCard.tsx getPriceChange: neutral result for fewer than two
points, otherwise first and last of the date-sorted series. -/
def getPriceChange (prices : List (String × ℚ)) : PriceChange :=
  let arr := getPriceArray prices
  if arr.length < 2 then
    { current := 0, previous := 0, change := 0
      changePercent := "0.00", isPositive := true }
  else
    let current := arr.getD (arr.length - 1) 0
    let previous := arr.getD 0 0
    let change := current - previous
    { current := current, previous := previous, change := change
      changePercent := toFixed2 (change / previous * 100)
      isPositive := decide (0 ≤ change) }

/-- The change text rendered by StockPriceCard.tsx renderPricePage: a plus
sign only when isPositive, then changePercent and a percent sign. -/
def stockChangeText (info : PriceChange) : String :=
  (if info.isPositive then "+" else "") ++ info.changePercent ++ "%"

/-! ## Expand/collapse state machine (DashboardScreen.tsx, MarketScreen.tsx) -/

/-- handleExpand of DashboardScreen.tsx and MarketScreen.tsx: tapping the
expand control of widgetId toggles the single expandedId field. -/
def handleExpand (expandedId : Option String) (widgetId : String) : Option String :=
  if expandedId = some widgetId then none else some widgetId

/-! ## Widget registry and validation (widgetComponentRegistry.ts, widgetValidation.ts) -/

/-- The three widget components registered in widgetComponentRegistry.ts. -/
inductive WidgetComponentRef where
  | totalBalanceCard
  | portfolioCard
  | stockPriceCard
deriving DecidableEq

/-- widgetComponentRegistry.ts getWidgetComponent: resolve a type name to
a component, or nothing when the name is not a registry key. -/
def getWidgetComponent (type : String) : Option WidgetComponentRef :=
  if type = "TotalBalanceCard" then some WidgetComponentRef.totalBalanceCard
  else if type = "PortfolioCard" then some WidgetComponentRef.portfolioCard
  else if type = "StockPriceCard" then some WidgetComponentRef.stockPriceCard
  else none

/-- One widget entry of a dashboard configuration, with payload type P.
A missing data prop is modelled as none. -/
structure WidgetEntry (P : Type) where
  id : String
  type : String
  data : Option P
deriving DecidableEq

/-- The record returned by widgetValidation.ts validateWidget. -/
structure ValidationResult (P : Type) where
  isValid : Bool
  component : Option WidgetComponentRef
  data : Option P
deriving DecidableEq

/-- widgetValidation.ts validateWidget: invalid when the type is not a
registry key or the data prop is missing, valid otherwise. -/
def validateWidget {P : Type} (w : WidgetEntry P) : ValidationResult P :=
  match getWidgetComponent w.type with
  | none => { isValid := false, component := none, data := none }
  | some c =>
    match w.data with
    | none => { isValid := false, component := none, data := none }
    | some d => { isValid := true, component := some c, data := some d }

/-- A widget actually rendered by the dashboard screen. -/
structure RenderedWidget (P : Type) where
  id : String
  component : WidgetComponentRef
  data : P
deriving DecidableEq

/-- The console.warn message for an unregistered widget type
(DashboardScreen.tsx). -/
def warnUnknownType (type : String) : String :=
  "Widget type \"" ++ type ++ "\" not found in registry"

/-- The console.warn message for a widget with no data prop
(DashboardScreen.tsx). -/
def warnMissingData (id : String) : String :=
  "Widget \"" ++ id ++ "\" is missing data prop"

/-- The widget-rendering loop of DashboardScreen.tsx: each entry either
becomes a rendered widget, or is skipped with a logged warning when its
type is not in the registry or its data prop is missing. Returns the
rendered widgets and the warnings, each in configuration order. -/
def renderDashboardWidgets {P : Type} :
    List (WidgetEntry P) → List (RenderedWidget P) × List String
  | [] => ([], [])
  | w :: ws =>
    let rest := renderDashboardWidgets ws
    match getWidgetComponent w.type with
    | none => (rest.1, warnUnknownType w.type :: rest.2)
    | some c =>
      match w.data with
      | none => (rest.1, warnMissingData w.id :: rest.2)
      | some d => ({ id := w.id, component := c, data := d } :: rest.1, rest.2)

/-! ## Page indicator (WidgetPageIndicator.tsx) -/

/-- WidgetPageIndicator.tsx: nothing is rendered when totalPages is at
most one; otherwise one dot per page, a dot being active exactly when its
index equals currentPage. -/
def widgetPageIndicator (currentPage totalPages : ℕ) : Option (List Bool) :=
  if totalPages ≤ 1 then none
  else some ((List.range totalPages).map (fun i => decide (i = currentPage)))

/-! ## Pagination scroll handler (PAGINATION_GUIDE.md handleScroll) -/

/-- JavaScript Math.round: the floor of x + 1/2. -/
def jsRound (x : ℚ) : ℤ :=
  ⌊x + 1 / 2⌋

/-- The fixed page width: window width minus the fixed horizontal
margins (36). -/
def cardWidth (screenWidth : ℚ) : ℚ :=
  screenWidth - 36

/-- PAGINATION_GUIDE.md handleScroll: the current page is the scroll
offset divided by the page width, rounded with Math.round. -/
def handleScroll (screenWidth offsetX : ℚ) : ℤ :=
  jsRound (offsetX / cardWidth screenWidth)

/-! ## Dashboard switching (MarketScreen.tsx) -/

/-- The MarketScreen state touched by a dashboard switch. -/
structure MarketScreenState where
  selectedDashboardId : String
  expandedId : Option String
deriving DecidableEq

/-- MarketScreen.tsx handleDashboardSelect: select the new dashboard and
close the expanded widget if one is open. -/
def handleDashboardSelect (s : MarketScreenState) (dashboardId : String) :
    MarketScreenState :=
  let s1 := { s with selectedDashboardId := dashboardId }
  if s1.expandedId.isSome then { s1 with expandedId := none } else s1

/-! ## Dashboard selection (DashboardScreen.tsx, MarketScreen.tsx) -/

/-- One dashboard of dashboards.json (widget list omitted: selection only
reads id and isDefault). -/
structure DashboardConfig where
  id : String
  name : String
  isDefault : Bool
deriving DecidableEq

/-- The JavaScript string-valued a-or-else-b: an absent or empty string is
falsy and falls through to the right operand. -/
def jsOrString (a b : Option String) : Option String :=
  match a with
  | some s => if s = "" then b else some s
  | none => b

/-- DashboardScreen.tsx dashboard resolution: the route param, or else the
id of the dashboard marked isDefault, or else the id of the first
dashboard. -/
def resolveDashboardId (param : Option String) (ds : List DashboardConfig) :
    Option String :=
  jsOrString (jsOrString param ((ds.find? (fun d => d.isDefault)).map DashboardConfig.id))
    (ds.head?.map DashboardConfig.id)

/-- MarketScreen.tsx initial selection state: the id of the first
dashboard, or the empty string. -/
def marketInitialSelectedId (ds : List DashboardConfig) : String :=
  (ds.head?.map DashboardConfig.id).getD ""

/-- MarketScreen.tsx selectedDashboard: the dashboard whose id equals the
selected id, or else the first dashboard. -/
def marketSelectedDashboard (selectedId : String) (ds : List DashboardConfig) :
    Option DashboardConfig :=
  match ds.find? (fun d => d.id == selectedId) with
  | some d => some d
  | none => ds.head?

/-! ## Portfolio gain text (PortfolioCard.tsx) -/

/-- The payload of PortfolioCard.tsx. -/
structure PortfolioCardPayload where
  value : ℚ
  gain : ℚ
  summary : Option String
deriving DecidableEq

/-- The gain text of the condensed portfolio page
(PortfolioCard.tsx renderCondensedPages): an unconditional plus sign,
then the gain to one decimal and a percent sign. -/
def portfolioCondensedGainText (data : PortfolioCardPayload) : String :=
  "+" ++ toFixed1 data.gain ++ "%"

/-- The gain text of the expanded portfolio view
(PortfolioCard.tsx renderExpandedView): identical markup to the condensed
page. -/
def portfolioExpandedGainText (data : PortfolioCardPayload) : String :=
  "+" ++ toFixed1 data.gain ++ "%"

/-! ## Shared helper lemmas -/

theorem jsOrString_some_ne (s : String) (b : Option String) (h : s ≠ "") :
    jsOrString (some s) b = some s := by
  simp [jsOrString, h]

theorem count_true_map_decide_eq (c n : ℕ) (h : c < n) :
    (((List.range n).map (fun i => decide (i = c))).count true) = 1 := by
  rw [List.count_eq_countP, List.countP_map]
  have hfun : ((fun b => b == true) ∘ fun i : ℕ => decide (i = c)) = fun i : ℕ => i == c := by
    funext i
    by_cases hic : i = c <;> simp [hic]
  rw [hfun, ← List.count_eq_countP]
  exact List.count_eq_one_of_mem (List.nodup_range n) (List.mem_range.mpr h)

/-! ## Claim theorems -/

/-- C3: at most one widget is expanded at a time: performing expand on A
and then expand on a distinct B leaves exactly B expanded, the single
expandedId field being replaced rather than accumulated. -/
theorem expand_mutual_exclusion (s : Option String) (A B : String) (h : B ≠ A) :
    handleExpand (handleExpand s A) B = some B := by
  by_cases h1 : s = some A
  · simp [handleExpand, h1]
  · simp [handleExpand, h1, Ne.symm h]

/-- Witness for C3: expanding w1 and then w2 from the condensed state
leaves exactly w2 expanded. -/
theorem expand_mutual_exclusion_witness :
    ("w2" : String) ≠ "w1"
    ∧ handleExpand (handleExpand none "w1") "w2" = some "w2" :=
  ⟨by decide, expand_mutual_exclusion none "w1" "w2" (by decide)⟩

/-- C4 counterexample: starting from the state in which w1 is already
expanded, tapping expand on w1 twice yields the expanded state again, not
the condensed state, so the double-tap property fails for that start
state. -/
theorem expand_toggle_counterexample :
    ¬ (handleExpand (handleExpand (some "w1") "w1") "w1" = none) := by
  decide

/-- C4 (amended): tapping expand on the currently-expanded widget
collapses it, and from any state in which W is not the expanded widget,
tapping expand on W twice returns the screen to the condensed state. -/
theorem expand_toggle (s : Option String) (W : String) :
    (s ≠ some W → handleExpand (handleExpand s W) W = none)
    ∧ handleExpand (some W) W = none := by
  refine ⟨fun h => ?_, by simp [handleExpand]⟩
  simp [handleExpand, h]

/-- Witness for C4: from the condensed state, expanding w1 twice returns
to the condensed state, and expanding the already-expanded w1 collapses
it. -/
theorem expand_toggle_witness :
    (none : Option String) ≠ some "w1"
    ∧ handleExpand (handleExpand none "w1") "w1" = none
    ∧ handleExpand (some "w1") "w1" = none :=
  ⟨by decide, (expand_toggle none "w1").1 (by decide), (expand_toggle none "w1").2⟩

/-- C6: the page indicator renders nothing when totalPages is at most 1;
for more than one page it renders exactly totalPages dots, and when the
current page is in range exactly one dot is active, namely the dot whose
index equals currentPage. -/
theorem page_indicator_spec (c n : ℕ) :
    (n ≤ 1 → widgetPageIndicator c n = none)
    ∧ (1 < n →
        (widgetPageIndicator c n).isSome = true
        ∧ ((widgetPageIndicator c n).getD []).length = n
        ∧ (c < n →
            ((widgetPageIndicator c n).getD []).count true = 1
            ∧ ∀ i, i < n →
                (((widgetPageIndicator c n).getD []).getD i false = true ↔ i = c))) := by
  constructor
  · intro h
    simp [widgetPageIndicator, h]
  · intro h
    have hn : ¬ n ≤ 1 := not_le.mpr h
    simp only [widgetPageIndicator, if_neg hn, Option.getD_some, Option.isSome_some]
    refine ⟨trivial, by simp, fun hc => ⟨count_true_map_decide_eq c n hc, fun i hi => ?_⟩⟩
    rw [List.getD_eq_getElem?_getD, List.getElem?_map, List.getElem?_range hi]
    simp

/-- Witness for C6: one page renders no indicator; with three pages and
current page 1 the indicator has one active dot, at index 1. -/
theorem page_indicator_witness :
    widgetPageIndicator 1 1 = none
    ∧ (widgetPageIndicator 1 3).isSome = true
    ∧ ((widgetPageIndicator 1 3).getD []).count true = 1
    ∧ ((widgetPageIndicator 1 3).getD []).getD 1 false = true :=
  ⟨(page_indicator_spec 1 1).1 (by decide),
   ((page_indicator_spec 1 3).2 (by decide)).1,
   ((((page_indicator_spec 1 3).2 (by decide)).2.2) (by decide)).1,
   (((((page_indicator_spec 1 3).2 (by decide)).2.2) (by decide)).2 1 (by decide)).mpr rfl⟩

/-- C7: the scroll handler derives the current page as the scroll offset
divided by the fixed page width (screen width minus 36), rounded to the
nearest integer: it agrees with mathematical rounding and is within one
half of the exact quotient. -/
theorem pagination_rounds_to_nearest (screenWidth offsetX : ℚ) :
    handleScroll screenWidth offsetX = round (offsetX / (screenWidth - 36))
    ∧ |offsetX / (screenWidth - 36) - (handleScroll screenWidth offsetX : ℚ)| ≤ 1 / 2 := by
  have h : handleScroll screenWidth offsetX = round (offsetX / (screenWidth - 36)) := by
    rw [handleScroll, jsRound, cardWidth, round_eq]
  refine ⟨h, ?_⟩
  rw [h]
  exact abs_sub_round _

/-- C8: switching dashboards while a widget is expanded clears the
expansion state as part of the switch, and selects the new dashboard. -/
theorem dashboard_switch_clears_expansion (s : MarketScreenState) (d w : String)
    (h : s.expandedId = some w) :
    (handleDashboardSelect s d).expandedId = none
    ∧ (handleDashboardSelect s d).selectedDashboardId = d := by
  simp [handleDashboardSelect, h]

/-- Witness for C8: switching from d1 to d2 while w1 is expanded clears
the expansion and selects d2. -/
theorem dashboard_switch_clears_expansion_witness :
    ({ selectedDashboardId := "d1", expandedId := some "w1" } : MarketScreenState).expandedId = some "w1"
    ∧ (handleDashboardSelect { selectedDashboardId := "d1", expandedId := some "w1" } "d2").expandedId = none
    ∧ (handleDashboardSelect { selectedDashboardId := "d1", expandedId := some "w1" } "d2").selectedDashboardId = "d2" :=
  ⟨rfl,
   (dashboard_switch_clears_expansion { selectedDashboardId := "d1", expandedId := some "w1" } "d2" "w1" rfl).1,
   (dashboard_switch_clears_expansion { selectedDashboardId := "d1", expandedId := some "w1" } "d2" "w1" rfl).2⟩

/-- C5: rendering a dashboard configuration is total and skips exactly the
invalid entries: the rendered widgets are exactly the entries accepted by
validateWidget (in configuration order), each skipped entry produces
exactly one logged warning (the registry warning or the missing-data
warning, in configuration order), and every entry is either rendered or
warned about. -/
theorem dashboard_renders_valid_widgets {P : Type} (ws : List (WidgetEntry P)) :
    (renderDashboardWidgets ws).1.map RenderedWidget.id
      = (ws.filter (fun w => (validateWidget w).isValid)).map WidgetEntry.id
    ∧ (renderDashboardWidgets ws).2
      = (ws.filter (fun w => ! (validateWidget w).isValid)).map
          (fun w =>
            match getWidgetComponent w.type with
            | none => warnUnknownType w.type
            | some _ => warnMissingData w.id)
    ∧ (renderDashboardWidgets ws).1.length + (renderDashboardWidgets ws).2.length
        = ws.length := by
  induction ws with
  | nil => exact ⟨rfl, rfl, rfl⟩
  | cons w ws ih =>
    obtain ⟨ih1, ih2, ih3⟩ := ih
    cases hcomp : getWidgetComponent w.type with
    | none =>
      have hv : (validateWidget w).isValid = false := by
        simp [validateWidget, hcomp]
      simp only [renderDashboardWidgets, hcomp, List.filter_cons, hv, Bool.not_false,
        if_true, if_false, Bool.false_eq_true, List.map_cons, List.length_cons]
      exact ⟨ih1, by rw [ih2], by omega⟩
    | some c =>
      cases hdata : w.data with
      | none =>
        have hv : (validateWidget w).isValid = false := by
          simp [validateWidget, hcomp, hdata]
        simp only [renderDashboardWidgets, hcomp, hdata, List.filter_cons, hv,
          Bool.not_false, if_true, if_false, Bool.false_eq_true, List.map_cons,
          List.length_cons]
        exact ⟨ih1, by rw [ih2], by omega⟩
      | some d =>
        have hv : (validateWidget w).isValid = true := by
          simp [validateWidget, hcomp, hdata]
        simp only [renderDashboardWidgets, hcomp, hdata, List.filter_cons, hv,
          Bool.not_true, if_true, if_false, Bool.false_eq_true, List.map_cons,
          List.length_cons]
        exact ⟨by rw [ih1], ih2, by omega⟩

/-- C9 counterexample: with dashboards alpha (not default) and beta
(default), the dashboard screen given the identifier of the empty string
selects beta rather than the given identifier, and the market screen
given no identifier selects alpha, not the default-marked beta. -/
theorem dashboard_selection_counterexample :
    ¬ (resolveDashboardId (some "")
        [{ id := "alpha", name := "Alpha", isDefault := false },
         { id := "beta", name := "Beta", isDefault := true }] = some "")
    ∧ ¬ ((marketSelectedDashboard
          (marketInitialSelectedId
            [{ id := "alpha", name := "Alpha", isDefault := false },
             { id := "beta", name := "Beta", isDefault := true }])
          [{ id := "alpha", name := "Alpha", isDefault := false },
           { id := "beta", name := "Beta", isDefault := true }]).map DashboardConfig.id
        = some "beta") := by
  constructor
  · decide
  · decide

/-- C9 (amended): on the dashboard screen a non-empty identifier selects
that identifier; an absent or empty identifier selects the default-marked
dashboard when it exists and has a non-empty id, and otherwise the first
dashboard. On the market screen the stored identifier selects its
dashboard exactly when it occurs in the configuration, with the first
dashboard as fallback. -/
theorem dashboard_selection_amended (param : Option String) (ds : List DashboardConfig) :
    (∀ s, param = some s → s ≠ "" → resolveDashboardId param ds = some s)
    ∧ ((param = none ∨ param = some "") →
        (∀ d, ds.find? (fun x => x.isDefault) = some d → d.id ≠ "" →
          resolveDashboardId param ds = some d.id)
        ∧ (ds.find? (fun x => x.isDefault) = none →
          resolveDashboardId param ds = ds.head?.map DashboardConfig.id))
    ∧ (∀ sel d, ds.find? (fun x => x.id == sel) = some d →
        marketSelectedDashboard sel ds = some d)
    ∧ (∀ sel, ds.find? (fun x => x.id == sel) = none →
        marketSelectedDashboard sel ds = ds.head?) := by
  refine ⟨?_, ?_, ?_, ?_⟩
  · intro s hp hs
    subst hp
    rw [resolveDashboardId, jsOrString_some_ne s _ hs, jsOrString_some_ne s _ hs]
  · intro hp
    have habsent : ∀ b, jsOrString param b = b := by
      intro b
      rcases hp with h | h <;> subst h <;> simp [jsOrString]
    constructor
    · intro d hd hid
      rw [resolveDashboardId, hd]
      simp only [Option.map]
      rw [habsent, jsOrString_some_ne d.id _ hid]
    · intro hd
      rw [resolveDashboardId, hd]
      simp only [Option.map]
      rw [habsent]
      simp [jsOrString]
  · intro sel d hd
    rw [marketSelectedDashboard, hd]
  · intro sel hd
    rw [marketSelectedDashboard, hd]

/-- Witness for C9 (amended): on the two-dashboard configuration, the
identifier beta selects beta; with no identifier the default-marked beta
is selected; the stored identifier alpha selects the alpha dashboard; an
unknown stored identifier falls back to the first dashboard. -/
theorem dashboard_selection_amended_witness :
    resolveDashboardId (some "beta")
      [{ id := "alpha", name := "Alpha", isDefault := false },
       { id := "beta", name := "Beta", isDefault := true }] = some "beta"
    ∧ resolveDashboardId none
        [{ id := "alpha", name := "Alpha", isDefault := false },
         { id := "beta", name := "Beta", isDefault := true }]
        = some ({ id := "beta", name := "Beta", isDefault := true } : DashboardConfig).id
    ∧ marketSelectedDashboard "alpha"
        [{ id := "alpha", name := "Alpha", isDefault := false },
         { id := "beta", name := "Beta", isDefault := true }]
        = some { id := "alpha", name := "Alpha", isDefault := false }
    ∧ marketSelectedDashboard "missing"
        [{ id := "alpha", name := "Alpha", isDefault := false },
         { id := "beta", name := "Beta", isDefault := true }]
        = [({ id := "alpha", name := "Alpha", isDefault := false } : DashboardConfig),
           { id := "beta", name := "Beta", isDefault := true }].head? :=
  ⟨(dashboard_selection_amended (some "beta") _).1 "beta" rfl (by decide),
   ((dashboard_selection_amended none _).2.1 (Or.inl rfl)).1
     { id := "beta", name := "Beta", isDefault := true } (by decide) (by decide),
   (dashboard_selection_amended none _).2.2.1 "alpha"
     { id := "alpha", name := "Alpha", isDefault := false } (by decide),
   (dashboard_selection_amended none _).2.2.2 "missing" (by decide)⟩

/-- C10: the portfolio widget renders its gain with an unconditional plus
prefix in both the condensed and the expanded view, so a negative gain of
minus three renders as +-3.0 percent, whereas the stock widget omits the
plus sign whenever isPositive is false. -/
theorem portfolio_gain_text_unconditional_plus (d : PortfolioCardPayload) :
    portfolioCondensedGainText d = "+" ++ toFixed1 d.gain ++ "%"
    ∧ portfolioExpandedGainText d = portfolioCondensedGainText d
    ∧ portfolioCondensedGainText { value := 45200, gain := -3, summary := none } = "+-3.0%"
    ∧ ∀ info : PriceChange, info.isPositive = false →
        stockChangeText info = info.changePercent ++ "%" := by
  refine ⟨rfl, rfl, ?_, ?_⟩
  · have hneg : (-3 : ℚ) < 0 := by norm_num
    have hfloor : ⌊-(-3 : ℚ) * 10 + 1 / 2⌋ = (30 : ℤ) := by
      rw [Int.floor_eq_iff]
      constructor <;> norm_num
    show "+" ++ toFixed1 (-3) ++ "%" = "+-3.0%"
    rw [toFixed1, if_pos hneg, hfloor]
    decide
  · intro info h
    simp [stockChangeText, h]

theorem getPriceArray_length (l : List (String × ℚ)) :
    (getPriceArray l).length = l.length := by
  unfold getPriceArray objectKeys
  rw [List.length_map, (List.perm_insertionSort strLeP _).length_eq, List.length_map]

theorem find_key_of_mem {l : List (String × ℚ)} {k : String} {v : ℚ}
    (hn : (objectKeys l).Nodup) (hmem : (k, v) ∈ l) :
    l.find? (fun p => p.1 == k) = some (k, v) := by
  induction l with
  | nil => cases hmem
  | cons a t ih =>
    have hn2 : a.1 ∉ t.map Prod.fst ∧ (t.map Prod.fst).Nodup := by
      have := hn
      rw [objectKeys, List.map_cons, List.nodup_cons] at this
      exact this
    rcases List.mem_cons.mp hmem with heq | hmem2
    · rw [← heq]
      exact List.find?_cons_of_pos t (by simp)
    · have hne : ¬ (a.1 == k) = true := by
        intro hak
        have hk1 : k ∈ t.map Prod.fst := by
          have : (k, v).1 ∈ t.map Prod.fst := List.mem_map_of_mem Prod.fst hmem2
          exact this
        rw [beq_iff_eq] at hak
        rw [hak] at hn2
        exact hn2.1 hk1
      rw [List.find?_cons_of_neg t hne]
      exact ih hn2.2 hmem2

theorem find_key_of_not_mem {l : List (String × ℚ)} {k : String}
    (hk : k ∉ objectKeys l) :
    l.find? (fun p => p.1 == k) = none := by
  rw [List.find?_eq_none]
  intro p hp hpk
  rw [beq_iff_eq] at hpk
  exact hk (by rw [← hpk]; exact List.mem_map_of_mem Prod.fst hp)

theorem priceAt_perm {l l2 : List (String × ℚ)} (hn : (objectKeys l).Nodup)
    (hp : l.Perm l2) (k : String) : priceAt l k = priceAt l2 k := by
  have hn2 : (objectKeys l2).Nodup := ((hp.map Prod.fst).nodup_iff).mp hn
  by_cases hk : k ∈ objectKeys l
  · obtain ⟨p, hpmem, hfst⟩ := List.mem_map.mp hk
    have hkv : (k, p.2) ∈ l := by
      rw [← hfst]
      exact hpmem
    have h1 := find_key_of_mem hn hkv
    have h2 := find_key_of_mem hn2 (hp.subset hkv)
    rw [priceAt, priceAt, h1, h2]
  · have hk2 : k ∉ objectKeys l2 := fun hmem => hk (((hp.map Prod.fst).mem_iff).mpr hmem)
    rw [priceAt, priceAt, find_key_of_not_mem hk, find_key_of_not_mem hk2]

theorem sortedKeys_perm_eq {l l2 : List (String × ℚ)} (hp : l.Perm l2) :
    List.insertionSort strLeP (objectKeys l) = List.insertionSort strLeP (objectKeys l2) :=
  List.eq_of_perm_of_sorted
    (((List.perm_insertionSort strLeP _).trans (hp.map Prod.fst)).trans
      (List.perm_insertionSort strLeP _).symm)
    (List.sorted_insertionSort strLeP _)
    (List.sorted_insertionSort strLeP _)

theorem getPriceArray_perm {l l2 : List (String × ℚ)} (hn : (objectKeys l).Nodup)
    (hp : l.Perm l2) : getPriceArray l = getPriceArray l2 := by
  unfold getPriceArray
  rw [sortedKeys_perm_eq hp]
  exact List.map_congr_left (fun k _ => priceAt_perm hn hp k)

theorem getPriceChange_perm {l l2 : List (String × ℚ)} (hn : (objectKeys l).Nodup)
    (hp : l.Perm l2) : getPriceChange l = getPriceChange l2 := by
  unfold getPriceChange
  rw [getPriceArray_perm hn hp]

theorem sorted_head_eq_min {xs : List String} {k : String} (hs : xs.Sorted strLeP)
    (hne : xs ≠ []) (hmem : k ∈ xs) (hmin : ∀ x ∈ xs, strLeP k x) :
    xs.head hne = k := by
  cases xs with
  | nil => exact absurd rfl hne
  | cons a t =>
    have h1 : strLeP k a := hmin a (List.mem_cons_self a t)
    have h2 : strLeP a k := by
      rcases List.mem_cons.mp hmem with heq | hmem2
      · rw [heq]
        exact le_refl a.data
      · exact List.rel_of_sorted_cons hs k hmem2
    exact antisymm h2 h1

theorem sorted_le_getLast :
    ∀ (xs : List String), xs.Sorted strLeP → ∀ (hne : xs ≠ []),
      ∀ x ∈ xs, strLeP x (xs.getLast hne)
  | [], _, hne, _, _ => absurd rfl hne
  | [a], _, _, x, hx => by
    rcases List.mem_cons.mp hx with heq | hmem2
    · rw [heq]
      exact le_refl a.data
    · cases hmem2
  | a :: b :: t, hs, _, x, hx => by
    have hne2 : (b :: t) ≠ [] := by simp
    rw [List.getLast_cons hne2]
    rcases List.mem_cons.mp hx with heq | hx2
    · rw [heq]
      exact List.rel_of_sorted_cons hs _ (List.getLast_mem hne2)
    · exact sorted_le_getLast (b :: t) hs.of_cons hne2 x hx2

theorem sorted_getLast_eq_max {xs : List String} {k : String} (hs : xs.Sorted strLeP)
    (hne : xs ≠ []) (hmem : k ∈ xs) (hmax : ∀ x ∈ xs, strLeP x k) :
    xs.getLast hne = k := by
  have h1 : strLeP (xs.getLast hne) k := hmax _ (List.getLast_mem hne)
  have h2 : strLeP k (xs.getLast hne) := sorted_le_getLast xs hs hne k hmem
  exact antisymm h1 h2

theorem getD_length_sub_one :
    ∀ (xs : List ℚ) (hne : xs ≠ []), xs.getD (xs.length - 1) 0 = xs.getLast hne
  | [], hne => absurd rfl hne
  | [a], _ => rfl
  | a :: b :: t, _ => by
    have hne2 : (b :: t) ≠ [] := by simp
    rw [List.getLast_cons hne2]
    have hidx : (a :: b :: t).length - 1 = ((b :: t).length - 1) + 1 := by
      simp
    rw [hidx, List.getD_cons_succ]
    exact getD_length_sub_one (b :: t) hne2

theorem map_getD_zero (f : String → ℚ) (xs : List String) (hne : xs ≠ []) :
    (xs.map f).getD 0 0 = f (xs.head hne) := by
  cases xs with
  | nil => exact absurd rfl hne
  | cons a t => simp

/-- C2: when the prices map has fewer than two entries, getPriceChange
returns the defined neutral result: zero current, previous and change, a
change percent of 0.00 and a positive flag; the division branch is never
reached. -/
theorem price_change_short_series_neutral (l : List (String × ℚ)) (h : l.length < 2) :
    getPriceChange l =
      { current := 0, previous := 0, change := 0
        changePercent := "0.00", isPositive := true } := by
  have harr : (getPriceArray l).length < 2 := by
    rw [getPriceArray_length]
    exact h
  simp [getPriceChange, harr]

/-- Witness for C2: the single-point series has fewer than two entries
and yields the neutral result. -/
theorem price_change_short_series_neutral_witness :
    ([(("2024-01-01" : String), (100 : ℚ))].length < 2)
    ∧ getPriceChange [(("2024-01-01" : String), (100 : ℚ))] =
        { current := 0, previous := 0, change := 0
          changePercent := "0.00", isPositive := true } :=
  ⟨by decide, price_change_short_series_neutral _ (by decide)⟩

theorem map_getD_last (f : String → ℚ) (xs : List String) (hne : xs ≠ []) :
    (xs.map f).getD ((xs.map f).length - 1) 0 = f (xs.getLast hne) := by
  have hne2 : xs.map f ≠ [] := by
    cases xs with
    | nil => exact absurd rfl hne
    | cons a t => simp
  rw [getD_length_sub_one (xs.map f) hne2, List.getLast_map]

/-- C1: for a prices map with at least two entries and no duplicate date
keys, the computed change percent is the difference between the prices at
the largest and the smallest date key, divided by the price at the
smallest key, times one hundred, formatted with two decimals; and the
whole price-change computation is invariant under reordering of the map
entries. -/
theorem stock_price_change_date_sorted
    (l l2 : List (String × ℚ)) (kmin kmax : String) (vfirst vlast : ℚ)
    (hn : (objectKeys l).Nodup) (hp : l.Perm l2) (hlen : 2 ≤ l.length)
    (hminMem : kmin ∈ objectKeys l) (hmin : ∀ k ∈ objectKeys l, strLeP kmin k)
    (hmaxMem : kmax ∈ objectKeys l) (hmax : ∀ k ∈ objectKeys l, strLeP k kmax)
    (hvf : priceAt l kmin = vfirst) (hvl : priceAt l kmax = vlast) :
    (getPriceChange l).changePercent = toFixed2 ((vlast - vfirst) / vfirst * 100)
    ∧ getPriceChange l = getPriceChange l2 := by
  have hskperm : (List.insertionSort strLeP (objectKeys l)).Perm (objectKeys l) :=
    List.perm_insertionSort strLeP _
  have hkl : (objectKeys l).length = l.length := by
    simp [objectKeys]
  have hskne : List.insertionSort strLeP (objectKeys l) ≠ [] := by
    intro h0
    have hl0 := hskperm.length_eq
    rw [h0, hkl] at hl0
    simp at hl0
    omega
  have hhead : (List.insertionSort strLeP (objectKeys l)).head hskne = kmin :=
    sorted_head_eq_min (List.sorted_insertionSort strLeP _) hskne
      (hskperm.mem_iff.mpr hminMem) (fun x hx => hmin x (hskperm.subset hx))
  have hlast : (List.insertionSort strLeP (objectKeys l)).getLast hskne = kmax :=
    sorted_getLast_eq_max (List.sorted_insertionSort strLeP _) hskne
      (hskperm.mem_iff.mpr hmaxMem) (fun x hx => hmax x (hskperm.subset hx))
  have harrlen : ¬ (getPriceArray l).length < 2 := by
    rw [getPriceArray_length]
    omega
  have hmapeq : getPriceArray l
      = (List.insertionSort strLeP (objectKeys l)).map (fun d => priceAt l d) := rfl
  have h0 : (getPriceArray l).getD 0 0 = vfirst := by
    rw [hmapeq, map_getD_zero (fun d => priceAt l d) _ hskne, hhead]
    exact hvf
  have hN : (getPriceArray l).getD ((getPriceArray l).length - 1) 0 = vlast := by
    rw [hmapeq, map_getD_last (fun d => priceAt l d) _ hskne, hlast]
    exact hvl
  have hchange : getPriceChange l =
      { current := (getPriceArray l).getD ((getPriceArray l).length - 1) 0
        previous := (getPriceArray l).getD 0 0
        change := (getPriceArray l).getD ((getPriceArray l).length - 1) 0
          - (getPriceArray l).getD 0 0
        changePercent := toFixed2 (((getPriceArray l).getD ((getPriceArray l).length - 1) 0
          - (getPriceArray l).getD 0 0) / (getPriceArray l).getD 0 0 * 100)
        isPositive := decide (0 ≤ (getPriceArray l).getD ((getPriceArray l).length - 1) 0
          - (getPriceArray l).getD 0 0) } := by
    simp only [getPriceChange]
    rw [if_neg harrlen]
  have hcp : (getPriceChange l).changePercent
      = toFixed2 (((getPriceArray l).getD ((getPriceArray l).length - 1) 0
          - (getPriceArray l).getD 0 0) / (getPriceArray l).getD 0 0 * 100) := by
    rw [hchange]
  constructor
  · rw [hcp, hN, h0]
  · exact getPriceChange_perm hn hp

/-- Witness for C1: on the two-point series entered in reverse date
order, the change percent is that of the date-sorted series, and the
computation agrees with the one on the series entered in date order. -/
theorem stock_price_change_date_sorted_witness :
    (objectKeys [(("2024-01-02" : String), (110 : ℚ)), ("2024-01-01", 100)]).Nodup
    ∧ [(("2024-01-02" : String), (110 : ℚ)), ("2024-01-01", 100)].Perm
        [(("2024-01-01" : String), (100 : ℚ)), ("2024-01-02", 110)]
    ∧ (getPriceChange [(("2024-01-02" : String), (110 : ℚ)), ("2024-01-01", 100)]).changePercent
        = toFixed2 (((110 : ℚ) - 100) / 100 * 100)
    ∧ getPriceChange [(("2024-01-02" : String), (110 : ℚ)), ("2024-01-01", 100)]
        = getPriceChange [(("2024-01-01" : String), (100 : ℚ)), ("2024-01-02", 110)] :=
  ⟨by decide, by decide,
   (stock_price_change_date_sorted
      [(("2024-01-02" : String), (110 : ℚ)), ("2024-01-01", 100)]
      [(("2024-01-01" : String), (100 : ℚ)), ("2024-01-02", 110)]
      "2024-01-01" "2024-01-02" 100 110
      (by decide) (by decide) (by decide) (by decide) (by decide)
      (by decide) (by decide) (by decide) (by decide)).1,
   (stock_price_change_date_sorted
      [(("2024-01-02" : String), (110 : ℚ)), ("2024-01-01", 100)]
      [(("2024-01-01" : String), (100 : ℚ)), ("2024-01-02", 110)]
      "2024-01-01" "2024-01-02" 100 110
      (by decide) (by decide) (by decide) (by decide) (by decide)
      (by decide) (by decide) (by decide) (by decide)).2⟩

/-- Witness for C10: the gain of minus three renders as +-3.0 percent,
while a non-positive stock change record renders without the plus
prefix. -/
theorem portfolio_gain_text_unconditional_plus_witness :
    portfolioCondensedGainText { value := 45200, gain := -3, summary := none } = "+-3.0%"
    ∧ ({ current := 90, previous := 100, change := -10
         changePercent := "-10.00", isPositive := false } : PriceChange).isPositive = false
    ∧ stockChangeText
        { current := 90, previous := 100, change := -10
          changePercent := "-10.00", isPositive := false } = "-10.00" ++ "%" :=
  ⟨(portfolio_gain_text_unconditional_plus
      { value := 45200, gain := -3, summary := none }).2.2.1,
   rfl,
   (portfolio_gain_text_unconditional_plus
      { value := 45200, gain := -3, summary := none }).2.2.2
     { current := 90, previous := 100, change := -10
       changePercent := "-10.00", isPositive := false } rfl⟩
